import Mathlib

/-!
Verification of the CodeCraft component pipeline: the entity model
(ConfigVariable / ESPHomeComponent), the Validator, the extraction merge
logic of the scraper, the crawl loop, and the YAML document generator,
shallowly embedded from the Python sources.

Python values flowing through the pipeline (YAML scalars, lists, dicts)
are modelled by the inductive type Value; Python `None` is modelled by
`Option Value = none`.  Python floats are modelled by exact rationals:
none of the properties proved here depend on floating-point rounding.
-/

/-- A Python value as it occurs in this program: a string, an int, a
float (modelled as an exact rational), a bool, a list, or a string-keyed
dict (modelled as an insertion-ordered association list, as Python dicts
are). -/
inductive Value where
  | vStr (s : String)
  | vInt (n : Int)
  | vRat (q : ℚ)
  | vBool (b : Bool)
  | vList (items : List Value)
  | vMap (entries : List (String × Value))

/-- Association-list lookup: the model of Python `d[k]` / `k in d` on a
dict represented as an insertion-ordered list of key-value pairs. -/
def alookup {α : Type} : List (String × α) → String → Option α
  | [], _ => none
  | (k, v) :: rest, key => if k = key then some v else alookup rest key

/-- Association-list update: the model of Python `d[k] = v` — replace the
value at an existing key in place, else append the new pair at the end
(Python dicts preserve insertion order). -/
def aset {α : Type} : List (String × α) → String → α → List (String × α)
  | [], key, val => [(key, val)]
  | (k, v) :: rest, key, val =>
    if k = key then (key, val) :: rest else (k, v) :: aset rest key val

/-! ### Reducible models of the Python string methods used by the core

Lean's own `String.toLower`, `String.take`, `String.splitOn` … are
compiled with loops that the kernel cannot evaluate, so the Python string
methods appearing in the sources are modelled directly on the character
list of the string (Python indexes strings by code point, which is
exactly `String.data`). -/

/-- Python `s.lower()` (ASCII, as used on the ASCII tags of this code). -/
def pyLower (s : String) : String := String.mk (s.data.map Char.toLower)

/-- Python `s.upper()` (ASCII). -/
def pyUpper (s : String) : String := String.mk (s.data.map Char.toUpper)

/-- Python `s[:n]`. -/
def pyTake (s : String) (n : Nat) : String := String.mk (s.data.take n)

/-- Python `s[n:]`. -/
def pyDrop (s : String) (n : Nat) : String := String.mk (s.data.drop n)

/-- Python `s.replace(a, b)` for one-character patterns. -/
def replaceChar (s : String) (a b : Char) : String :=
  String.mk (s.data.map (fun c => if c = a then b else c))

/-- Python `s.split(sep)` for a one-character separator, on character
lists: `splitOnChar [] = [[]]`, and separators delimit (possibly empty)
groups. -/
def splitOnChar : List Char → Char → List (List Char)
  | [], _ => [[]]
  | c :: rest, sep =>
    if c = sep then [] :: splitOnChar rest sep
    else
      match splitOnChar rest sep with
      | [] => [[c]]
      | g :: gs => (c :: g) :: gs

/-- Digits of a numeral to a natural number (helper for the models of
Python `int(...)` / `float(...)` on strings of digits). -/
def digitsToNat (cs : List Char) : Nat :=
  cs.foldl (fun n c => n * 10 + (c.toNat - 48)) 0

/-- A non-empty all-digit character list to its value, `none` otherwise. -/
def listToNatOpt (cs : List Char) : Option Nat :=
  if cs ≠ [] ∧ cs.all Char.isDigit then some (digitsToNat cs) else none

/-! ## Entity model (src/models/config_variable.py, src/models/component.py) -/

/-- `ConfigVariable` from src/models/config_variable.py: a single typed,
optionally required configuration field.  `current_value = none` models
Python `None` (the constructor initialises it to `None`). -/
structure ConfigVariable where
  name : String
  description : String
  data_type : String
  is_required : Bool
  default_value : Option Value
  current_value : Option Value

/-- `ESPHomeComponent` from src/models/component.py.  `instance_id` is the
uuid4 string generated at construction; uuid generation is environmental,
so the model takes the id as a field.  Canvas placement fields are carried
with their constructor defaults. -/
structure ESPHomeComponent where
  name : String
  component_type : String
  description : String
  platforms : List String
  config_vars : List ConfigVariable
  url : Option String
  instance_id : String
  x_position : Int := 0
  y_position : Int := 0
  width : Int := 200
  height : Int := 150

/-- Model of Python `int(s)` on a string: optional sign followed by one or
more digits, the whole string consumed.  (Whitespace stripping and digit
group underscores, which Python also accepts, are not modelled; no input
used in this development contains them.) -/
def pyParseInt (s : String) : Option Int :=
  match s.data with
  | [] => none
  | '+' :: cs =>
    if cs ≠ [] ∧ cs.all Char.isDigit then some (digitsToNat cs : Int) else none
  | '-' :: cs =>
    if cs ≠ [] ∧ cs.all Char.isDigit then some (-(digitsToNat cs : Int)) else none
  | cs =>
    if cs.all Char.isDigit then some (digitsToNat cs : Int) else none

/-- Unsigned decimal literal `d+` or `d*.d*` (at least one digit overall),
as accepted by Python `float(...)`, valued as an exact rational. -/
def parseUnsignedFloat (s : String) : Option ℚ :=
  match splitOnChar s.data '.' with
  | [a] =>
    if a ≠ [] ∧ a.all Char.isDigit then some (digitsToNat a : ℚ) else none
  | [a, b] =>
    if (a ≠ [] ∨ b ≠ []) ∧ a.all Char.isDigit ∧ b.all Char.isDigit then
      some ((digitsToNat a : ℚ) + (digitsToNat b : ℚ) / (10 ^ b.length : ℚ))
    else none
  | _ => none

/-- Model of Python `float(s)` on a string: optional sign and a decimal
literal.  (Exponent forms and `inf`/`nan` are not modelled; no input used
in this development contains them.) -/
def pyParseFloat (s : String) : Option ℚ :=
  match s.data with
  | '+' :: cs => parseUnsignedFloat (String.mk cs)
  | '-' :: cs => (parseUnsignedFloat (String.mk cs)).map (fun q => -q)
  | _ => parseUnsignedFloat s

/-- Python `int(q)` on a float: truncation toward zero. -/
def pyTruncRat (q : ℚ) : Int :=
  if q < 0 then ⌈q⌉ else ⌊q⌋

/-- Model of Python `int(value)` on an arbitrary value: succeeds on ints,
bools (a subclass of int), floats (truncation) and digit strings, raises
(returns `none`) otherwise. -/
def pyInt : Value → Option Int
  | .vInt n => some n
  | .vBool b => some (if b then 1 else 0)
  | .vRat q => some (pyTruncRat q)
  | .vStr s => pyParseInt s
  | _ => none

/-- Model of Python `float(value)`: succeeds on numbers and numeric
strings, raises (returns `none`) otherwise. -/
def pyFloat : Value → Option ℚ
  | .vInt n => some (n : ℚ)
  | .vBool b => some (if b then 1 else 0)
  | .vRat q => some q
  | .vStr s => pyParseFloat s
  | _ => none

/-- Model of Python `bool(value)` (truthiness). -/
def pyTruthy : Value → Bool
  | .vStr s => s != ""
  | .vInt n => n != 0
  | .vRat q => q != 0
  | .vBool b => b
  | .vList l => !l.isEmpty
  | .vMap m => !m.isEmpty

/-- `ConfigVariable.set_value` (src/models/config_variable.py lines 21-48),
returned as `(result, updated variable)`: rejects `None` when required,
coerces `int`/`float`/`bool` typed values like the source does (note that
Python `bool` is a subclass of `int`, so bool values pass the
`isinstance(value, int)` / `isinstance(value, (int, float))` checks
unchanged), and stores the value.  A failed coercion returns `false` and
leaves the variable untouched. -/
def set_value (cv : ConfigVariable) (value : Option Value) : Bool × ConfigVariable :=
  match value with
  | none =>
    if cv.is_required then (false, cv)
    else (true, { cv with current_value := none })
  | some v =>
    if cv.data_type = "int" then
      match v with
      | .vInt _ => (true, { cv with current_value := some v })
      | .vBool _ => (true, { cv with current_value := some v })
      | _ =>
        match pyInt v with
        | some n => (true, { cv with current_value := some (.vInt n) })
        | none => (false, cv)
    else if cv.data_type = "float" then
      match v with
      | .vInt _ | .vBool _ | .vRat _ => (true, { cv with current_value := some v })
      | _ =>
        match pyFloat v with
        | some q => (true, { cv with current_value := some (.vRat q) })
        | none => (false, cv)
    else if cv.data_type = "bool" then
      match v with
      | .vBool _ => (true, { cv with current_value := some v })
      | .vStr s =>
        let b := pyLower s == "true" || pyLower s == "1" || pyLower s == "yes" || pyLower s == "on"
        (true, { cv with current_value := some (.vBool b) })
      | _ => (true, { cv with current_value := some (.vBool (pyTruthy v)) })
    else (true, { cv with current_value := some v })

/-- `ConfigVariable.get_effective_value` (src/models/config_variable.py
lines 50-54): the current value if set, else the default. -/
def get_effective_value (cv : ConfigVariable) : Option Value :=
  match cv.current_value with
  | some v => some v
  | none => cv.default_value

/-! ## Validator (src/utils/validation.py) -/

/-- Hexadecimal digit test, the character class `[0-9A-Fa-f]`. -/
def isHexDigitChar (c : Char) : Bool :=
  c.isDigit || ('a' ≤ c && c ≤ 'f') || ('A' ≤ c && c ≤ 'F')

/-- Value of a hexadecimal digit. -/
def hexDigitVal (c : Char) : Nat :=
  if c.isDigit then c.toNat - 48
  else if 'a' ≤ c && c ≤ 'f' then c.toNat - 87
  else c.toNat - 55

/-- The regex `^[a-zA-Z][a-zA-Z0-9_]*$` used for identifiers. -/
def identifierPattern (s : String) : Bool :=
  match s.data with
  | [] => false
  | c :: cs => c.isAlpha && cs.all (fun d => d.isAlpha || d.isDigit || d = '_')

/-- Python `str(value)` as used by `validate_by_type` to feed the
pattern-based validators.  Faithful on strings, ints and bools; the float,
list and dict renderings are best-effort approximations (no claim settled
here feeds such a value to a pattern-based validator). -/
def pyStr : Value → String
  | .vStr s => s
  | .vInt n => toString n
  | .vBool b => if b then "True" else "False"
  | .vRat q => toString q
  | .vList l => "[" ++ String.intercalate ", " (l.attach.map (fun x => pyStr x.1)) ++ "]"
  | .vMap m =>
    "\x7b" ++ String.intercalate ", " (m.attach.map (fun e => e.1.1 ++ ": " ++ pyStr e.1.2)) ++ "\x7d"
termination_by v => sizeOf v
decreasing_by
  · have h := List.sizeOf_lt_of_mem x.2
    simp only [Value.vList.sizeOf_spec]
    omega
  · have h := List.sizeOf_lt_of_mem e.2
    obtain ⟨⟨a, b⟩, hm⟩ := e
    simp only [Value.vMap.sizeOf_spec, Prod.mk.sizeOf_spec] at h ⊢
    omega

/-- `ConfigValidator.validate_identifier` (validation.py lines 27-47). -/
def validate_identifier (v : String) : Bool × Option String :=
  if v = "" then (false, some "Identifier cannot be empty")
  else if !identifierPattern v then
    (false, some "Identifier must start with a letter and contain only letters, numbers, and underscores")
  else if v.length > 63 then (false, some "Identifier must be 63 characters or less")
  else if pyLower v ∈ ["true", "false", "null", "yes", "no", "on", "off",
      "esphome", "wifi", "api", "ota", "logger", "web_server"] then
    (false, some (v ++ " is a reserved keyword"))
  else (true, none)

/-- The regex `^(GPIO)?(\d+)$` (IGNORECASE): strip an optional `GPIO`
prefix in any case, then require a non-empty run of digits. -/
def parsePinStr (s : String) : Option Nat :=
  if pyLower (pyTake s 4) = "gpio" then listToNatOpt (pyDrop s 4).data
  else listToNatOpt s.data

/-- The platform-specific pin allow-list built by `validate_pin_number`
(validation.py lines 62-72): ESP32 is 0-39 minus the flash pins 6-11,
ESP8266 is an explicit list, anything else is 0-49. -/
def validPins (platform : String) : List Int :=
  if pyUpper platform = "ESP32" then
    ((List.range 40).map Int.ofNat).filter
      (fun p => !(p ∈ ([6, 7, 8, 9, 10, 11] : List Int)))
  else if pyUpper platform = "ESP8266" then
    [0, 1, 2, 3, 4, 5, 12, 13, 14, 15, 16]
  else
    (List.range 50).map Int.ofNat

/-- Membership test of a parsed pin number in the allow-list. -/
def checkPin (n : Int) (platform : String) : Bool × Option String :=
  if n ∈ validPins platform then (true, none)
  else (false, some ("Pin " ++ toString n ++ " is not valid for " ++ platform))

/-- `ConfigValidator.validate_pin_number` (validation.py lines 49-77):
accepts a `GPIO<n>`-or-digits string or an int (Python bools are ints),
then checks the platform allow-list. -/
def validate_pin_number (value : Value) (platform : String) : Bool × Option String :=
  match value with
  | .vStr s =>
    match parsePinStr s with
    | some n => checkPin (n : Int) platform
    | none => (false, some "Invalid pin format. Use GPIO<number> or just <number>")
  | .vInt n => checkPin n platform
  | .vBool b => checkPin (if b then 1 else 0) platform
  | _ => (false, some "Pin must be a number or GPIO string")

/-- The reserved I2C addresses 0x00-0x07 and 0x78-0x7F. -/
def reservedI2C : List Int :=
  [0x00, 0x01, 0x02, 0x03, 0x04, 0x05, 0x06, 0x07,
   0x78, 0x79, 0x7A, 0x7B, 0x7C, 0x7D, 0x7E, 0x7F]

/-- Reserved-address check shared by both branches of
`validate_i2c_address`. -/
def checkI2CReserved (addr : Int) : Bool × Option String :=
  if addr ∈ reservedI2C then (false, some "Address is reserved")
  else (true, none)

/-- `ConfigValidator.validate_i2c_address` (validation.py lines 79-99):
a `0xHH` string (regex `^0x[0-9A-Fa-f]{2}$`) or an int in 0-255, minus the
reserved addresses. -/
def validate_i2c_address (value : Value) : Bool × Option String :=
  match value with
  | .vStr s =>
    match s.data with
    | ['0', 'x', h1, h2] =>
      if isHexDigitChar h1 && isHexDigitChar h2 then
        checkI2CReserved ((16 * hexDigitVal h1 + hexDigitVal h2 : Nat) : Int)
      else (false, some "I2C address must be in format 0xNN (e.g., 0x48)")
    | _ => (false, some "I2C address must be in format 0xNN (e.g., 0x48)")
  | .vInt n =>
    if 0 ≤ n ∧ n ≤ 255 then checkI2CReserved n
    else (false, some "I2C address must be between 0x00 and 0xFF")
  | .vBool b =>
    checkI2CReserved (if b then 1 else 0)
  | _ => (false, some "I2C address must be a hex string or integer")

/-- The regex `^(\d+(\.\d+)?)([A-Za-z]+)$`: a decimal number followed by a
non-empty alphabetic unit, with the number valued exactly. -/
def parseNumUnit (s : String) : Option (ℚ × String) :=
  let cs := s.data
  let ds := cs.takeWhile Char.isDigit
  let rest1 := cs.drop ds.length
  if ds.isEmpty then none
  else
    match rest1 with
    | '.' :: rest2 =>
      let fs := rest2.takeWhile Char.isDigit
      let rest3 := rest2.drop fs.length
      if fs.isEmpty then none
      else if !rest3.isEmpty && rest3.all Char.isAlpha then
        some ((digitsToNat ds : ℚ) + (digitsToNat fs : ℚ) / (10 ^ fs.length : ℚ), String.mk rest3)
      else none
    | _ =>
      if !rest1.isEmpty && rest1.all Char.isAlpha then
        some ((digitsToNat ds : ℚ), String.mk rest1)
      else none

/-- `ConfigValidator.validate_frequency` (validation.py lines 101-123):
number plus `Hz`/`KHz`/`MHz` unit (case-insensitive), normalised to Hz and
bounded by (0, 1e9]. -/
def validate_frequency (s : String) : Bool × Option String :=
  match parseNumUnit s with
  | some (q, unit) =>
    let u := pyLower unit
    if u = "hz" ∨ u = "khz" ∨ u = "mhz" then
      let mult : ℚ := if u = "hz" then 1 else if u = "khz" then 1000 else 1000000
      let hz := q * mult
      if hz ≤ 0 then (false, some "Frequency must be positive")
      else if hz > 1000000000 then (false, some "Frequency is too high (max 1 GHz)")
      else (true, none)
    else (false, some "Frequency must include units (Hz, KHz, MHz)")
  | none => (false, some "Frequency must include units (Hz, KHz, MHz)")

/-- `ConfigValidator.validate_time_duration` (validation.py lines 125-147):
number plus `ms`/`s`/`min`/`h` unit (case-insensitive), normalised to
milliseconds and bounded by (0, 86400000]. -/
def validate_time_duration (s : String) : Bool × Option String :=
  match parseNumUnit s with
  | some (q, unit) =>
    let u := pyLower unit
    if u = "ms" ∨ u = "s" ∨ u = "min" ∨ u = "h" then
      let mult : ℚ :=
        if u = "ms" then 1 else if u = "s" then 1000 else if u = "min" then 60000 else 3600000
      let ms := q * mult
      if ms ≤ 0 then (false, some "Duration must be positive")
      else if ms > 86400000 then (false, some "Duration is too long (max 24 hours)")
      else (true, none)
    else (false, some "Time duration must include units (ms, s, min, h)")
  | none => (false, some "Time duration must include units (ms, s, min, h)")

/-- Range check shared by the branches of `validate_percentage`. -/
def checkPercentRange (q : ℚ) : Bool × Option String :=
  if 0 ≤ q ∧ q ≤ 100 then (true, none)
  else (false, some "Percentage must be between 0 and 100")

/-- `ConfigValidator.validate_percentage` (validation.py lines 149-167):
a number, or a string ending in `%` whose prefix parses as a float, in
[0, 100]. -/
def validate_percentage (value : Value) : Bool × Option String :=
  match value with
  | .vStr s =>
    if s.data.getLast? = some '%' then
      match pyParseFloat (String.mk s.data.dropLast) with
      | some q => checkPercentRange q
      | none => (false, some "Invalid percentage format")
    else (false, some "Percentage must end with %")
  | .vInt n => checkPercentRange (n : ℚ)
  | .vRat q => checkPercentRange q
  | .vBool b => checkPercentRange (if b then 1 else 0)
  | _ => (false, some "Percentage must be a number or string with %")

/-- `ConfigValidator.validate_ip_address` (validation.py lines 169-183):
regex `^(\d{1,3}\.){3}\d{1,3}$`, then each octet in 0-255. -/
def validate_ip_address (s : String) : Bool × Option String :=
  let parts := splitOnChar s.data '.'
  if parts.length = 4 ∧ parts.all (fun p => decide (1 ≤ p.length ∧ p.length ≤ 3) && p.all Char.isDigit) then
    if parts.all (fun p => digitsToNat p ≤ 255) then (true, none)
    else (false, some "IP address octets must be between 0 and 255")
  else (false, some "Invalid IP address format")

/-- `context.get('platform', 'ESP32')` — the crawl context is modelled as
a string-valued association list. -/
def getContextPlatform (context : List (String × String)) : String :=
  (alookup context "platform").getD "ESP32"

/-- `ConfigValidator.validate_by_type` (validation.py lines 185-239):
`None` is always valid; otherwise dispatch on the `data_type` tag, with
unknown tags valid. -/
def validate_by_type (value : Option Value) (data_type : String)
    (context : List (String × String)) : Bool × Option String :=
  match value with
  | none => (true, none)
  | some v =>
    let str_value := pyStr v
    if data_type = "identifier" then validate_identifier str_value
    else if data_type = "pin" then validate_pin_number v (getContextPlatform context)
    else if data_type = "i2c_address" then validate_i2c_address v
    else if data_type = "frequency" then validate_frequency str_value
    else if data_type = "time" then validate_time_duration str_value
    else if data_type = "percentage" then validate_percentage v
    else if data_type = "ip_address" then validate_ip_address str_value
    else if data_type = "int" then
      match pyInt v with
      | some _ => (true, none)
      | none => (false, some "Value must be an integer")
    else if data_type = "float" then
      match pyFloat v with
      | some _ => (true, none)
      | none => (false, some "Value must be a number")
    else if data_type = "bool" then
      match v with
      | .vBool _ => (true, none)
      | .vStr s =>
        if pyLower s ∈ ["true", "false", "1", "0", "yes", "no", "on", "off"] then (true, none)
        else (false, some "Value must be a boolean (true/false)")
      | _ => (false, some "Value must be a boolean (true/false)")
    else if data_type = "string" then
      if str_value.length > 1000 then (false, some "String is too long (max 1000 characters)")
      else (true, none)
    else (true, none)

/-! ## Extraction merge logic (src/scraper.py)

The HTML/text parsing itself (BeautifulSoup, trafilatura) is I/O-bound
and not embedded; the merge logic of `_parse_config_variables` and
`scrape_component_page` is embedded as functions of the variable lists
each extraction pass produced. -/

/-- The guarded append `if not any(cv.name == var.name for cv in
config_vars): config_vars.append(var)` used by the code-block pass
(scraper.py lines 283-285) and the clean-content merge (lines 499-501). -/
def appendIfAbsent (acc : List ConfigVariable) (v : ConfigVariable) : List ConfigVariable :=
  if acc.any (fun cv => cv.name == v.name) then acc else acc ++ [v]

/-- `_parse_config_variables` (scraper.py lines 214-290) as a function of
its two passes: method 1 (tables and definition lists under configuration
headings) appends every variable it finds unconditionally; method 2 (YAML
code blocks) appends only variables whose name is not already present. -/
def parse_config_variables (tableDlVars codeBlockVars : List ConfigVariable) :
    List ConfigVariable :=
  codeBlockVars.foldl appendIfAbsent tableDlVars

/-- The configuration-variable merge of `scrape_component_page`
(scraper.py lines 493-501): the HTML passes first, then clean-content
variables appended only when their name is not already present. -/
def scrape_page_config_vars (tableDlVars codeBlockVars contentVars : List ConfigVariable) :
    List ConfigVariable :=
  contentVars.foldl appendIfAbsent (parse_config_variables tableDlVars codeBlockVars)

/-! ## Crawl loop (src/scraper.py `run_scraping`, lines 523-600)

The network outcome of each link is environmental, so the model takes per
link the pair of the link text and what fetching plus extraction plus
persistence would yield.  The cancellation flag is set asynchronously by
`cancel_scraping`; the model reads it through a schedule `flag`, indexed
by the sequence of reads the loop performs (one at the top of each
iteration, and one after the loop for the completion check). -/

/-- What one link yields: a scraped component together with the success of
`db_manager.save_component`, or a fetch/extraction failure. -/
inductive PageResult where
  | fetched (c : ESPHomeComponent) (saveOk : Bool)
  | failed

/-- Observable outcome of a crawl run: counters, the `component_found`
emissions in order, how many links were fetched, whether the loop broke at
a cancellation check, and whether `scraping_finished` was emitted. -/
structure ScrapeState where
  scraped : Nat
  failed : Nat
  reported : List String
  fetchedLinks : Nat
  brokeEarly : Bool
  finishedEmitted : Bool

/-- The per-link loop of `run_scraping` (scraper.py lines 569-596): check
the cancellation flag, break if set; otherwise fetch and extract, count
and report; after exhausting the list, emit `scraping_finished` only if
the flag is still clear. -/
def runLoop : List (String × PageResult) → (Nat → Bool) → Nat → ScrapeState → ScrapeState
  | [], flag, i, st => { st with finishedEmitted := !flag i }
  | (name, pr) :: rest, flag, i, st =>
    if flag i then { st with brokeEarly := true }
    else
      match pr with
      | .fetched _ saveOk =>
        if saveOk then
          runLoop rest flag (i + 1)
            { st with scraped := st.scraped + 1, reported := st.reported ++ [name],
                      fetchedLinks := st.fetchedLinks + 1 }
        else
          runLoop rest flag (i + 1) { st with fetchedLinks := st.fetchedLinks + 1 }
      | .failed =>
        runLoop rest flag (i + 1)
          { st with failed := st.failed + 1, fetchedLinks := st.fetchedLinks + 1 }

/-- `run_scraping` restricted to its sequential link loop, from the reset
flag and zeroed counters. -/
def run_scraping (links : List (String × PageResult)) (flag : Nat → Bool) : ScrapeState :=
  runLoop links flag 0 ⟨0, 0, [], 0, false, false⟩

/-! ## Document generator (src/utils/yaml_generator.py)

`generate_esphome_config` is embedded up to its Python-dict result; the
final `yaml.dump` serialisation is byte formatting and none of the claims
are about it. -/

/-- The `safe_name` normalisation of `_generate_component_config`
(yaml_generator.py line 85): lower-case, then spaces and hyphens — not
dots — replaced by underscores. -/
def safeName (name : String) : String :=
  replaceChar (replaceChar (pyLower name) ' ' '_') '-' '_'

/-- The variable-assignment loop of `_generate_component_config`
(yaml_generator.py lines 78-81): `config[var.name] = value` for every
variable with a non-None effective value. -/
def assignVars (cfg : List (String × Value)) : List ConfigVariable → List (String × Value)
  | [] => cfg
  | v :: vs =>
    match get_effective_value v with
    | some w => assignVars (aset cfg v.name w) vs
    | none => assignVars cfg vs

/-- The initial entry dict of `_generate_component_config`
(yaml_generator.py lines 71-75): a `platform` key exactly when the
component's name differs from its type. -/
def entryBase (c : ESPHomeComponent) : List (String × Value) :=
  if c.name ≠ c.component_type then [("platform", Value.vStr c.name)] else []

/-- The entry dict after the variable-assignment loop. -/
def entryVars (c : ESPHomeComponent) : List (String × Value) :=
  assignVars (entryBase c) c.config_vars

/-- The entry dict built by `_generate_component_config` (yaml_generator.py
lines 69-88): a `platform` key when the name differs from the type, one key
per configured variable, and a synthesised `id` when none resulted. -/
def buildEntry (c : ESPHomeComponent) : List (String × Value) :=
  if (alookup (entryVars c) "id").isSome then entryVars c
  else entryVars c ++ [("id", Value.vStr (safeName c.name ++ "_" ++ pyTake c.instance_id 8))]

/-- `_generate_component_config` with its trailing
`return config if config else None`. -/
def generate_component_config (c : ESPHomeComponent) : Option (List (String × Value)) :=
  if (buildEntry c).isEmpty then none else some (buildEntry c)

/-- The fixed top-level sections seeded by `generate_esphome_config`
(yaml_generator.py lines 26-43). -/
def preseedConfig (device_name platform board : String) : List (String × Value) :=
  [("esphome", Value.vMap
      [("name", Value.vStr device_name), ("platform", Value.vStr platform),
       ("board", Value.vStr board)]),
   ("wifi", Value.vMap
      [("ssid", Value.vStr "!secret wifi_ssid"), ("password", Value.vStr "!secret wifi_password")]),
   ("logger", Value.vMap []),
   ("api", Value.vMap [("password", Value.vStr "!secret api_password")]),
   ("ota", Value.vMap [("password", Value.vStr "!secret ota_password")])]

/-- One step of the grouping loop (yaml_generator.py lines 46-50):
`component_groups[component_type].append(component)`, creating the group
on first sight. -/
def addToGroups (gs : List (String × List ESPHomeComponent)) (c : ESPHomeComponent) :
    List (String × List ESPHomeComponent) :=
  match alookup gs c.component_type with
  | some cs => aset gs c.component_type (cs ++ [c])
  | none => gs ++ [(c.component_type, [c])]

/-- The grouping of components by type, preserving first-seen type order
and input order within a type. -/
def groupByType (comps : List ESPHomeComponent) : List (String × List ESPHomeComponent) :=
  comps.foldl addToGroups []

/-- The inner component loop of `generate_esphome_config` (yaml_generator.py
lines 57-64): append the entry when the section holds a list, else replace
the section by the entry. -/
def addComponentToSection (cfg : List (String × Value)) (t : String)
    (c : ESPHomeComponent) : List (String × Value) :=
  match generate_component_config c with
  | none => cfg
  | some cc =>
    match alookup cfg t with
    | some (Value.vList l) => aset cfg t (Value.vList (l ++ [Value.vMap cc]))
    | some _ => aset cfg t (Value.vMap cc)
    | none => cfg

/-- The per-group body of `generate_esphome_config` (yaml_generator.py
lines 53-64): seed a missing section with an empty list, then add each
component of the group. -/
def addGroup (cfg : List (String × Value)) (t : String)
    (cs : List ESPHomeComponent) : List (String × Value) :=
  let cfg1 := if (alookup cfg t).isSome then cfg else cfg ++ [(t, Value.vList [])]
  cs.foldl (fun acc c => addComponentToSection acc t c) cfg1

/-- `YAMLGenerator.generate_esphome_config` (yaml_generator.py lines
20-67), up to its Python-dict result. -/
def generate_esphome_config (comps : List ESPHomeComponent)
    (device_name platform board : String) : List (String × Value) :=
  (groupByType comps).foldl (fun cfg g => addGroup cfg g.1 g.2)
    (preseedConfig device_name platform board)

/-- `YAMLGenerator._deep_merge` (yaml_generator.py lines 185-196) as a
function on parsed documents: for each key of the merge dict, recurse when
both values are dicts, concatenate when both are lists, otherwise the
merge dict's value overwrites; keys only in the merge dict are appended. -/
def deepMergeM : List (String × Value) → List (String × Value) → List (String × Value)
  | base, [] => base
  | base, (k, v) :: rest =>
    match alookup base k, v with
    | some (Value.vMap bm), Value.vMap vm =>
      deepMergeM (aset base k (Value.vMap (deepMergeM bm vm))) rest
    | some (Value.vList bl), Value.vList vl =>
      deepMergeM (aset base k (Value.vList (bl ++ vl))) rest
    | _, _ => deepMergeM (aset base k v) rest
termination_by _ l => sizeOf l
decreasing_by
  · simp only [List.cons.sizeOf_spec, Prod.mk.sizeOf_spec, Value.vMap.sizeOf_spec]
    omega
  · simp only [List.cons.sizeOf_spec]
    omega
  · simp only [List.cons.sizeOf_spec]
    omega
  · simp only [List.cons.sizeOf_spec]
    omega

/-! ## Concrete instances used by witnesses and counterexamples -/

/-- A component whose name contains a dot, exercising the id-synthesis
normalisation, with a string variable whose value needs YAML quoting. -/
def c1comp : ESPHomeComponent :=
  { name := "a.b", component_type := "sensor", description := "", platforms := [],
    config_vars := [{ name := "note", description := "", data_type := "string",
                      is_required := false, default_value := some (Value.vStr "p: q"),
                      current_value := none }],
    url := none, instance_id := "0123456789abcdef" }

/-- A table-extracted variable named `pin`. -/
def tablePinVar : ConfigVariable :=
  { name := "pin", description := "The pin from the table", data_type := "int",
    is_required := false, default_value := none, current_value := none }

/-- A definition-list-extracted variable also named `pin`. -/
def dlPinVar : ConfigVariable :=
  { name := "pin", description := "The pin from the definition list", data_type := "pin",
    is_required := true, default_value := none, current_value := none }

/-- A code-block-extracted variable named `pin`. -/
def codePinVar : ConfigVariable :=
  { name := "pin", description := "Configuration parameter for pin", data_type := "pin",
    is_required := false, default_value := none, current_value := none }

/-- A code-block-extracted variable named `mode`. -/
def codeModeVar : ConfigVariable :=
  { name := "mode", description := "Configuration parameter for mode", data_type := "string",
    is_required := false, default_value := none, current_value := none }

/-- A parsed document used to exercise `deepMergeM`. -/
def c3docA : List (String × Value) :=
  [("sensor", Value.vList [Value.vInt 1]),
   ("logger", Value.vMap [("level", Value.vStr "DEBUG")])]

/-- A second parsed document used to exercise `deepMergeM`. -/
def c3docB : List (String × Value) :=
  [("sensor", Value.vList [Value.vInt 2]), ("api", Value.vStr "x")]

/-- A required pin variable configured to `GPIO2`. -/
def dhtPinVar : ConfigVariable :=
  { name := "pin", description := "", data_type := "pin", is_required := true,
    default_value := none, current_value := some (Value.vStr "GPIO2") }

/-- A `sensor`-typed component named `dht` with a configured pin. -/
def dhtComp : ESPHomeComponent :=
  { name := "dht", component_type := "sensor", description := "", platforms := ["ESP32"],
    config_vars := [dhtPinVar], url := none, instance_id := "aabbccddeeff0011" }

/-- A component whose type collides with the pre-seeded `api` section. -/
def apiComp : ESPHomeComponent :=
  { name := "myapi", component_type := "api", description := "", platforms := [],
    config_vars := [], url := none, instance_id := "ffee000011223344" }

/-- An `int`-typed variable with a value already set. -/
def c6var : ConfigVariable :=
  { name := "pin", description := "", data_type := "int", is_required := false,
    default_value := none, current_value := some (Value.vInt 5) }

/-- A trivial scraped component for the crawl-loop instances. -/
def mkLinkComp (n : String) : ESPHomeComponent :=
  { name := n, component_type := "sensor", description := "", platforms := [],
    config_vars := [], url := none, instance_id := n }

/-- A five-link crawl where every fetch would succeed. -/
def c8links : List (String × PageResult) :=
  [("dht", .fetched (mkLinkComp "dht") true),
   ("gpio", .fetched (mkLinkComp "gpio") true),
   ("bme280", .fetched (mkLinkComp "bme280") true),
   ("sht3xd", .fetched (mkLinkComp "sht3xd") true),
   ("uart", .fetched (mkLinkComp "uart") true)]

/-- A cancellation schedule whose flag becomes visible at the third
cancellation check — i.e. the user cancels after the 2nd successful
extraction. -/
def c8flag : Nat → Bool := fun i => decide (2 ≤ i)

/-- A `switch`-typed component named `gpio` whose only variable carries no
value. -/
def c9comp : ESPHomeComponent :=
  { name := "gpio", component_type := "switch", description := "", platforms := [],
    config_vars := [{ name := "id", description := "", data_type := "identifier",
                      is_required := false, default_value := none, current_value := none }],
    url := none, instance_id := "123456789" }

/-- A required `bool`-typed variable with no value yet. -/
def c10var : ConfigVariable :=
  { name := "enabled", description := "", data_type := "bool", is_required := true,
    default_value := none, current_value := none }

/-- The per-key merge rule of `_deep_merge`: recurse when both values are
dicts, concatenate when both are lists, otherwise the merge dict's value
wins (also used when the key is absent from the base dict). -/
def mergedValue : Option Value → Value → Value
  | some (Value.vMap bm), Value.vMap vm => Value.vMap (deepMergeM bm vm)
  | some (Value.vList bl), Value.vList vl => Value.vList (bl ++ vl)
  | _, v => v

/-- The name a link contributes to the `component_found` emissions: only a
link that is fetched, extracted and saved is reported. -/
def reportName (pr : String × PageResult) : Option String :=
  match pr.2 with
  | .fetched _ true => some pr.1
  | _ => none

/-! ## Association-list lemmas -/

theorem alookup_aset_self {α : Type} (m : List (String × α)) (k : String) (v : α) :
    alookup (aset m k v) k = some v := by
  induction m with
  | nil => simp [aset, alookup]
  | cons p rest ih =>
    obtain ⟨k0, v0⟩ := p
    by_cases h : k0 = k
    · simp [aset, h, alookup]
    · simp [aset, h, alookup, ih]

theorem alookup_aset_other {α : Type} (m : List (String × α)) (k k' : String) (v : α)
    (h : k' ≠ k) : alookup (aset m k v) k' = alookup m k' := by
  induction m with
  | nil => simp [aset, alookup, Ne.symm h]
  | cons p rest ih =>
    obtain ⟨k0, v0⟩ := p
    by_cases hk : k0 = k
    · subst hk
      simp [aset, alookup, Ne.symm h]
    · simp [aset, hk, alookup, ih]

theorem alookup_append_none {α : Type} {m1 : List (String × α)} (m2 : List (String × α))
    {k : String} (h : alookup m1 k = none) : alookup (m1 ++ m2) k = alookup m2 k := by
  induction m1 with
  | nil => rfl
  | cons p rest ih =>
    obtain ⟨k0, v0⟩ := p
    by_cases hk : k0 = k
    · simp [alookup, hk] at h
    · simp only [alookup, hk, if_false, List.cons_append] at h ⊢
      exact ih h

theorem alookup_append_some {α : Type} {m1 : List (String × α)} (m2 : List (String × α))
    {k : String} {v : α} (h : alookup m1 k = some v) : alookup (m1 ++ m2) k = some v := by
  induction m1 with
  | nil => simp [alookup] at h
  | cons p rest ih =>
    obtain ⟨k0, v0⟩ := p
    by_cases hk : k0 = k
    · simp only [alookup, hk, if_true] at h
      simp only [List.cons_append, alookup, hk, if_true]
      exact h
    · simp only [alookup, hk, if_false] at h
      simp only [List.cons_append, alookup, hk, if_false]
      exact ih h

theorem alookup_eq_none_iff {α : Type} (m : List (String × α)) (k : String) :
    alookup m k = none ↔ k ∉ m.map Prod.fst := by
  induction m with
  | nil => simp [alookup]
  | cons p rest ih =>
    obtain ⟨k0, v0⟩ := p
    by_cases hk : k0 = k
    · simp [alookup, hk]
    · simp [alookup, hk, ih, Ne.symm hk]

theorem aset_eq_append_of_none {α : Type} {m : List (String × α)} {k : String} (v : α)
    (h : alookup m k = none) : aset m k v = m ++ [(k, v)] := by
  induction m with
  | nil => simp [aset]
  | cons p rest ih =>
    obtain ⟨k0, v0⟩ := p
    by_cases hk : k0 = k
    · simp [alookup, hk] at h
    · simp only [alookup, hk, if_false] at h
      simp [aset, hk, ih h]

theorem aset_map_fst_of_some {α : Type} {m : List (String × α)} {k : String} (v : α)
    (h : (alookup m k).isSome) : (aset m k v).map Prod.fst = m.map Prod.fst := by
  induction m with
  | nil => simp [alookup] at h
  | cons p rest ih =>
    obtain ⟨k0, v0⟩ := p
    by_cases hk : k0 = k
    · simp [aset, hk]
    · simp only [alookup, hk, if_false] at h
      simp [aset, hk, ih h]

/-! ## Generator helper lemmas -/

theorem assignVars_lookup_unset (vars : List ConfigVariable) (cfg : List (String × Value))
    (k : String) (h : ∀ v ∈ vars, v.name = k → get_effective_value v = none) :
    alookup (assignVars cfg vars) k = alookup cfg k := by
  induction vars generalizing cfg with
  | nil => rfl
  | cons v vs ih =>
    by_cases hn : v.name = k
    · have hv := h v (List.mem_cons_self v vs) hn
      simp only [assignVars, hv]
      exact ih cfg (fun u hu => h u (List.mem_cons_of_mem v hu))
    · cases hv : get_effective_value v with
      | none =>
        simp only [assignVars, hv]
        exact ih cfg (fun u hu => h u (List.mem_cons_of_mem v hu))
      | some w =>
        simp only [assignVars, hv]
        rw [ih _ (fun u hu => h u (List.mem_cons_of_mem v hu))]
        exact alookup_aset_other cfg v.name k w (fun hc => hn hc.symm)

theorem assignVars_lookup_set (vars : List ConfigVariable) (cfg : List (String × Value))
    {v : ConfigVariable} {w : Value} (hv : v ∈ vars) (hw : get_effective_value v = some w)
    (hnod : (vars.map ConfigVariable.name).Nodup) :
    alookup (assignVars cfg vars) v.name = some w := by
  induction vars generalizing cfg with
  | nil => simp at hv
  | cons u us ih =>
    rcases List.mem_cons.mp hv with heq | hmem
    · subst heq
      simp only [assignVars, hw]
      have hnotin : v.name ∉ us.map ConfigVariable.name := (List.nodup_cons.mp hnod).1
      rw [assignVars_lookup_unset us _ v.name
        (fun u hu hn => absurd (hn ▸ List.mem_map_of_mem ConfigVariable.name hu) hnotin)]
      exact alookup_aset_self cfg v.name w
    · have htail : (us.map ConfigVariable.name).Nodup := (List.nodup_cons.mp hnod).2
      cases hu : get_effective_value u with
      | none =>
        simp only [assignVars, hu]
        exact ih _ hmem htail
      | some w' =>
        simp only [assignVars, hu]
        exact ih _ hmem htail

theorem buildEntry_ne_nil (c : ESPHomeComponent) : buildEntry c ≠ [] := by
  unfold buildEntry
  split
  · next hs =>
    intro hnil
    rw [hnil] at hs
    simp [alookup] at hs
  · intro hnil
    simp at hnil

theorem generate_component_config_eq (c : ESPHomeComponent) :
    generate_component_config c = some (buildEntry c) := by
  unfold generate_component_config
  cases hb : buildEntry c with
  | nil => exact absurd hb (buildEntry_ne_nil c)
  | cons a l => simp

theorem buildEntry_id_isSome (c : ESPHomeComponent) :
    (alookup (buildEntry c) "id").isSome := by
  unfold buildEntry
  split
  · next hs => exact hs
  · next hs =>
    have hn : alookup (entryVars c) "id" = none := by
      cases hl : alookup (entryVars c) "id" with
      | none => rfl
      | some v => rw [hl] at hs; simp at hs
    rw [alookup_append_none _ hn]
    simp [alookup]

theorem entryBase_lookup_id (c : ESPHomeComponent) : alookup (entryBase c) "id" = none := by
  unfold entryBase
  split <;> simp [alookup]

theorem entryBase_lookup_platform (c : ESPHomeComponent) :
    alookup (entryBase c) "platform" =
      if c.name ≠ c.component_type then some (Value.vStr c.name) else none := by
  unfold entryBase
  split <;> simp [alookup]

theorem entryVars_lookup_id_none (c : ESPHomeComponent)
    (h : ∀ v ∈ c.config_vars, v.name = "id" → get_effective_value v = none) :
    alookup (entryVars c) "id" = none := by
  unfold entryVars
  rw [assignVars_lookup_unset _ _ _ h]
  exact entryBase_lookup_id c

theorem buildEntry_lookup_id_synth (c : ESPHomeComponent)
    (h : ∀ v ∈ c.config_vars, v.name = "id" → get_effective_value v = none) :
    alookup (buildEntry c) "id" =
      some (Value.vStr (safeName c.name ++ "_" ++ pyTake c.instance_id 8)) := by
  have hn := entryVars_lookup_id_none c h
  unfold buildEntry
  rw [hn]
  simp only [Option.isSome_none, Bool.false_eq_true, if_false]
  rw [alookup_append_none _ hn]
  simp [alookup]

theorem buildEntry_lookup_platform (c : ESPHomeComponent)
    (h : ∀ v ∈ c.config_vars, v.name = "platform" → get_effective_value v = none) :
    alookup (buildEntry c) "platform" =
      if c.name ≠ c.component_type then some (Value.vStr c.name) else none := by
  have hp : alookup (entryVars c) "platform" =
      if c.name ≠ c.component_type then some (Value.vStr c.name) else none := by
    unfold entryVars
    rw [assignVars_lookup_unset _ _ _ h]
    exact entryBase_lookup_platform c
  unfold buildEntry
  split
  · exact hp
  · cases hq : alookup (entryVars c) "platform" with
    | some v =>
      rw [alookup_append_some _ hq, hp] at *
      rw [← hp, hq]
    | none =>
      rw [alookup_append_none _ hq, ← hp, hq]
      rfl

theorem buildEntry_lookup_var (c : ESPHomeComponent) {v : ConfigVariable} {w : Value}
    (hv : v ∈ c.config_vars) (hw : get_effective_value v = some w)
    (hnod : (c.config_vars.map ConfigVariable.name).Nodup) :
    alookup (buildEntry c) v.name = some w := by
  have hs : alookup (entryVars c) v.name = some w :=
    assignVars_lookup_set c.config_vars (entryBase c) hv hw hnod
  unfold buildEntry
  split
  · exact hs
  · exact alookup_append_some _ hs

theorem fold_addToGroups_some (comps : List ESPHomeComponent)
    (acc : List (String × List ESPHomeComponent)) (t : String)
    {cs : List ESPHomeComponent} (h : alookup acc t = some cs) :
    alookup (comps.foldl addToGroups acc) t =
      some (cs ++ comps.filter (fun c => c.component_type == t)) := by
  induction comps generalizing acc cs with
  | nil => simpa using h
  | cons c comps ih =>
    rw [List.foldl_cons]
    by_cases hc : c.component_type = t
    · have hacc : alookup acc c.component_type = some cs := hc ▸ h
      have hstep : alookup (addToGroups acc c) t = some (cs ++ [c]) := by
        unfold addToGroups
        rw [hacc, ← hc]
        exact alookup_aset_self acc c.component_type (cs ++ [c])
      rw [ih _ hstep]
      simp [List.filter_cons, hc]
    · have hstep : alookup (addToGroups acc c) t = some cs := by
        unfold addToGroups
        cases hl : alookup acc c.component_type with
        | some cs0 => rw [alookup_aset_other _ _ _ _ (fun he => hc he.symm)]; exact h
        | none =>
          rw [alookup_append_some _ h]
      rw [ih _ hstep]
      simp [List.filter_cons, hc]

theorem fold_addToGroups_none (comps : List ESPHomeComponent)
    (acc : List (String × List ESPHomeComponent)) (t : String)
    (h : alookup acc t = none) :
    alookup (comps.foldl addToGroups acc) t =
      if (comps.filter (fun c => c.component_type == t)).isEmpty then none
      else some (comps.filter (fun c => c.component_type == t)) := by
  induction comps generalizing acc with
  | nil => simpa using h
  | cons c comps ih =>
    rw [List.foldl_cons]
    by_cases hc : c.component_type = t
    · have hacc : alookup acc c.component_type = none := hc ▸ h
      have hstep : alookup (addToGroups acc c) t = some [c] := by
        unfold addToGroups
        rw [hacc]
        rw [alookup_append_none _ h]
        simp [alookup, hc]
      rw [fold_addToGroups_some _ _ _ hstep]
      simp [List.filter_cons, hc]
    · have hstep : alookup (addToGroups acc c) t = none := by
        unfold addToGroups
        cases hl : alookup acc c.component_type with
        | some cs0 => rw [alookup_aset_other _ _ _ _ (fun he => hc he.symm)]; exact h
        | none =>
          rw [alookup_append_none _ h]
          simp [alookup, hc]
      rw [ih _ hstep]
      simp [List.filter_cons, hc]

theorem groupByType_lookup (comps : List ESPHomeComponent) (t : String) :
    alookup (groupByType comps) t =
      if (comps.filter (fun c => c.component_type == t)).isEmpty then none
      else some (comps.filter (fun c => c.component_type == t)) :=
  fold_addToGroups_none comps [] t rfl

theorem fold_addToGroups_keys_nodup (comps : List ESPHomeComponent)
    (acc : List (String × List ESPHomeComponent))
    (h : (acc.map Prod.fst).Nodup) :
    ((comps.foldl addToGroups acc).map Prod.fst).Nodup := by
  induction comps generalizing acc with
  | nil => simpa using h
  | cons c comps ih =>
    rw [List.foldl_cons]
    apply ih
    unfold addToGroups
    cases hl : alookup acc c.component_type with
    | some cs0 =>
      rw [aset_map_fst_of_some _ (by rw [hl]; rfl)]
      exact h
    | none =>
      have hnotin : c.component_type ∉ acc.map Prod.fst :=
        (alookup_eq_none_iff acc c.component_type).mp hl
      rw [List.map_append]
      rw [List.nodup_append]
      refine ⟨h, List.nodup_singleton _, ?_⟩
      intro x hx hx2
      simp at hx2
      subst hx2
      exact hnotin hx

theorem groupByType_keys_nodup (comps : List ESPHomeComponent) :
    ((groupByType comps).map Prod.fst).Nodup :=
  fold_addToGroups_keys_nodup comps [] (by simp)

theorem addComponentToSection_other (cfg : List (String × Value)) (t : String)
    (c : ESPHomeComponent) (t' : String) (h : t' ≠ t) :
    alookup (addComponentToSection cfg t c) t' = alookup cfg t' := by
  unfold addComponentToSection
  rw [generate_component_config_eq]
  cases hl : alookup cfg t with
  | none => rfl
  | some v => cases v <;> simp [alookup_aset_other _ _ _ _ h]

theorem fold_addComponent_other (cs : List ESPHomeComponent) (cfg : List (String × Value))
    (t t' : String) (h : t' ≠ t) :
    alookup (cs.foldl (fun acc c => addComponentToSection acc t c) cfg) t' = alookup cfg t' := by
  induction cs generalizing cfg with
  | nil => rfl
  | cons c cs ih =>
    rw [List.foldl_cons, ih]
    exact addComponentToSection_other cfg t c t' h

theorem fold_addComponent_list (cs : List ESPHomeComponent) (cfg : List (String × Value))
    (t : String) (l : List Value) (h : alookup cfg t = some (Value.vList l)) :
    alookup (cs.foldl (fun acc c => addComponentToSection acc t c) cfg) t =
      some (Value.vList (l ++ cs.map (fun c => Value.vMap (buildEntry c)))) := by
  induction cs generalizing cfg l with
  | nil => simpa using h
  | cons c cs ih =>
    rw [List.foldl_cons]
    have hstep : alookup (addComponentToSection cfg t c) t
        = some (Value.vList (l ++ [Value.vMap (buildEntry c)])) := by
      unfold addComponentToSection
      rw [generate_component_config_eq, h]
      exact alookup_aset_self cfg t _
    rw [ih _ _ hstep]
    simp

theorem addGroup_lookup_absent (cfg : List (String × Value)) (t : String)
    (cs : List ESPHomeComponent) (h : alookup cfg t = none) :
    alookup (addGroup cfg t cs) t =
      some (Value.vList (cs.map (fun c => Value.vMap (buildEntry c)))) := by
  unfold addGroup
  rw [if_neg (by rw [h]; simp)]
  have h1 : alookup (cfg ++ [(t, Value.vList [])]) t = some (Value.vList []) := by
    rw [alookup_append_none _ h]
    simp [alookup]
  have h2 := fold_addComponent_list cs _ t [] h1
  simpa using h2

theorem addGroup_lookup_other (cfg : List (String × Value)) (t : String)
    (cs : List ESPHomeComponent) (t' : String) (h : t' ≠ t) :
    alookup (addGroup cfg t cs) t' = alookup cfg t' := by
  unfold addGroup
  split
  · exact fold_addComponent_other cs cfg t t' h
  · rw [fold_addComponent_other cs _ t t' h]
    cases hc : alookup cfg t' with
    | some v => exact alookup_append_some _ hc
    | none =>
      rw [alookup_append_none _ hc]
      simp [alookup, Ne.symm h]

theorem addGroup_lookup_scalar_single (cfg : List (String × Value)) (t : String)
    (c : ESPHomeComponent) (m : List (String × Value))
    (h : alookup cfg t = some (Value.vMap m)) :
    alookup (addGroup cfg t [c]) t = some (Value.vMap (buildEntry c)) := by
  unfold addGroup
  rw [if_pos (by rw [h]; rfl)]
  rw [List.foldl_cons, List.foldl_nil]
  unfold addComponentToSection
  rw [generate_component_config_eq, h]
  exact alookup_aset_self cfg t _

theorem fold_addGroup_preserve (groups : List (String × List ESPHomeComponent))
    (cfg : List (String × Value)) (t : String) (h : t ∉ groups.map Prod.fst) :
    alookup (groups.foldl (fun cfg g => addGroup cfg g.1 g.2) cfg) t = alookup cfg t := by
  induction groups generalizing cfg with
  | nil => rfl
  | cons g groups ih =>
    simp only [List.map_cons, List.mem_cons, not_or] at h
    rw [List.foldl_cons, ih _ h.2]
    exact addGroup_lookup_other cfg g.1 g.2 t h.1

theorem fold_addGroup_absent_none (groups : List (String × List ESPHomeComponent))
    (cfg : List (String × Value)) (t : String) (h : alookup cfg t = none)
    (hg : alookup groups t = none) :
    alookup (groups.foldl (fun cfg g => addGroup cfg g.1 g.2) cfg) t = none := by
  induction groups generalizing cfg with
  | nil => simpa using h
  | cons g groups ih =>
    obtain ⟨t0, cs0⟩ := g
    by_cases ht : t0 = t
    · subst ht
      simp [alookup] at hg
    · simp only [alookup, if_neg ht] at hg
      rw [List.foldl_cons]
      refine ih _ ?_ hg
      rw [addGroup_lookup_other cfg t0 cs0 t (fun he => ht he.symm)]
      exact h

theorem fold_addGroup_absent_some (groups : List (String × List ESPHomeComponent))
    (cfg : List (String × Value)) (t : String) {cs : List ESPHomeComponent}
    (hn : (groups.map Prod.fst).Nodup) (h : alookup cfg t = none)
    (hg : alookup groups t = some cs) :
    alookup (groups.foldl (fun cfg g => addGroup cfg g.1 g.2) cfg) t =
      some (Value.vList (cs.map (fun c => Value.vMap (buildEntry c)))) := by
  induction groups generalizing cfg with
  | nil => simp [alookup] at hg
  | cons g groups ih =>
    obtain ⟨t0, cs0⟩ := g
    rw [List.foldl_cons]
    by_cases ht : t0 = t
    · subst ht
      simp only [alookup, if_pos rfl] at hg
      have hcs : cs0 = cs := Option.some.inj hg
      subst hcs
      have hnotin : t0 ∉ groups.map Prod.fst := (List.nodup_cons.mp (by simpa using hn)).1
      rw [fold_addGroup_preserve groups _ t0 hnotin]
      exact addGroup_lookup_absent cfg t0 _ h
    · simp only [alookup, if_neg ht] at hg
      have htail : (groups.map Prod.fst).Nodup := (List.nodup_cons.mp (by simpa using hn)).2
      refine ih _ htail ?_ hg
      rw [addGroup_lookup_other cfg t0 cs0 t (fun he => ht he.symm)]
      exact h

theorem fold_addGroup_scalar (groups : List (String × List ESPHomeComponent))
    (cfg : List (String × Value)) (t : String) (c : ESPHomeComponent)
    (m : List (String × Value)) (hn : (groups.map Prod.fst).Nodup)
    (h : alookup cfg t = some (Value.vMap m)) (hg : alookup groups t = some [c]) :
    alookup (groups.foldl (fun cfg g => addGroup cfg g.1 g.2) cfg) t =
      some (Value.vMap (buildEntry c)) := by
  induction groups generalizing cfg with
  | nil => simp [alookup] at hg
  | cons g groups ih =>
    obtain ⟨t0, cs0⟩ := g
    rw [List.foldl_cons]
    by_cases ht : t0 = t
    · subst ht
      simp only [alookup, if_pos rfl] at hg
      have hcs : cs0 = [c] := Option.some.inj hg
      subst hcs
      have hnotin : t0 ∉ groups.map Prod.fst := (List.nodup_cons.mp (by simpa using hn)).1
      rw [fold_addGroup_preserve groups _ t0 hnotin]
      exact addGroup_lookup_scalar_single cfg t0 c m h
    · simp only [alookup, if_neg ht] at hg
      have htail : (groups.map Prod.fst).Nodup := (List.nodup_cons.mp (by simpa using hn)).2
      refine ih _ htail ?_ hg
      rw [addGroup_lookup_other cfg t0 cs0 t (fun he => ht he.symm)]
      exact h

theorem preseed_lookup_absent (d p b t : String)
    (h : t ∉ (["esphome", "wifi", "logger", "api", "ota"] : List String)) :
    alookup (preseedConfig d p b) t = none := by
  simp only [List.mem_cons, List.mem_singleton, not_or] at h
  obtain ⟨h1, h2, h3, h4, h5⟩ := h
  simp [preseedConfig, alookup, Ne.symm h1, Ne.symm h2, Ne.symm h3, Ne.symm h4, Ne.symm h5.1]

/-! ## Extraction-merge helper lemmas -/

theorem fold_appendIfAbsent_shape (vars acc : List ConfigVariable) :
    ∃ extra, vars.foldl appendIfAbsent acc = acc ++ extra
      ∧ (∀ v ∈ extra, v ∈ vars ∧ ∀ w ∈ acc, w.name ≠ v.name)
      ∧ (extra.map ConfigVariable.name).Nodup := by
  induction vars generalizing acc with
  | nil => exact ⟨[], by simp, by simp, by simp⟩
  | cons v vs ih =>
    rw [List.foldl_cons]
    by_cases hp : acc.any (fun cv => cv.name == v.name)
    · rw [show appendIfAbsent acc v = acc from by simp [appendIfAbsent, hp]]
      obtain ⟨extra, he, hprop, hnod⟩ := ih acc
      exact ⟨extra, he,
        fun u hu => ⟨List.mem_cons_of_mem v (hprop u hu).1, (hprop u hu).2⟩, hnod⟩
    · rw [show appendIfAbsent acc v = acc ++ [v] from by simp [appendIfAbsent, hp]]
      obtain ⟨extra, he, hprop, hnod⟩ := ih (acc ++ [v])
      have hfresh : ∀ w ∈ acc, w.name ≠ v.name := by
        intro w hw heq
        exact hp (List.any_eq_true.mpr ⟨w, hw, by simp [heq]⟩)
      refine ⟨v :: extra, by rw [he]; simp, ?_, ?_⟩
      · intro u hu
        rcases List.mem_cons.mp hu with rfl | hmem
        · exact ⟨List.mem_cons_self _ _, hfresh⟩
        · refine ⟨List.mem_cons_of_mem v (hprop u hmem).1, ?_⟩
          intro w hw
          exact (hprop u hmem).2 w (List.mem_append_left _ hw)
      · rw [List.map_cons, List.nodup_cons]
        refine ⟨?_, hnod⟩
        intro hmm
        obtain ⟨u, hu, hname⟩ := List.mem_map.mp hmm
        exact (hprop u hu).2 v (List.mem_append_right _ (by simp)) hname.symm

theorem find_append_of_some {α : Type} (p : α → Bool) {l1 : List α} (l2 : List α)
    (h : (l1.find? p).isSome) : (l1 ++ l2).find? p = l1.find? p := by
  induction l1 with
  | nil => simp [List.find?] at h
  | cons a l ih =>
    cases hpa : p a with
    | true => simp [List.find?, hpa]
    | false =>
      simp only [List.find?, hpa] at h
      simp only [List.cons_append, List.find?, hpa]
      exact ih h

/-! ## Crawl-loop helper lemma -/

theorem runLoop_cancel (links : List (String × PageResult)) (flag : Nat → Bool)
    (j i : Nat) (st : ScrapeState) (hj : j < links.length)
    (hset : flag (i + j) = true) (hbefore : ∀ k, k < j → flag (i + k) = false) :
    (runLoop links flag i st).fetchedLinks = st.fetchedLinks + j
    ∧ (runLoop links flag i st).brokeEarly = true
    ∧ (runLoop links flag i st).finishedEmitted = st.finishedEmitted
    ∧ (runLoop links flag i st).reported = st.reported ++ (links.take j).filterMap reportName
    ∧ (runLoop links flag i st).scraped
        = st.scraped + ((links.take j).filterMap reportName).length := by
  induction links generalizing i st j with
  | nil => simp at hj
  | cons lk rest ih =>
    obtain ⟨name, pr⟩ := lk
    cases j with
    | zero =>
      have h0 : flag i = true := by simpa using hset
      simp [runLoop, h0]
    | succ j' =>
      have h0 : flag i = false := by
        have := hbefore 0 (Nat.succ_pos j')
        simpa using this
      have hj' : j' < rest.length := by simpa using hj
      have hset' : flag ((i + 1) + j') = true := by
        rw [show (i + 1) + j' = i + (j' + 1) from by omega]
        exact hset
      have hbefore' : ∀ k, k < j' → flag ((i + 1) + k) = false := by
        intro k hk
        rw [show (i + 1) + k = i + (k + 1) from by omega]
        exact hbefore (k + 1) (by omega)
      cases pr with
      | fetched c saveOk =>
        cases saveOk with
        | true =>
          have hrec := ih j' (i + 1)
            { st with scraped := st.scraped + 1, reported := st.reported ++ [name],
                      fetchedLinks := st.fetchedLinks + 1 } hj' hset' hbefore'
          have heq : runLoop ((name, PageResult.fetched c true) :: rest) flag i st
              = runLoop rest flag (i + 1)
                { st with scraped := st.scraped + 1, reported := st.reported ++ [name],
                          fetchedLinks := st.fetchedLinks + 1 } := by
            simp [runLoop, h0]
          rw [heq]
          refine ⟨by rw [hrec.1]; dsimp only; omega, hrec.2.1, hrec.2.2.1, ?_, ?_⟩
          · rw [hrec.2.2.2.1]
            simp [List.take_succ_cons, List.filterMap_cons, reportName]
          · rw [hrec.2.2.2.2]
            simp [List.take_succ_cons, List.filterMap_cons, reportName]
            omega
        | false =>
          have hrec := ih j' (i + 1)
            { st with fetchedLinks := st.fetchedLinks + 1 } hj' hset' hbefore'
          have heq : runLoop ((name, PageResult.fetched c false) :: rest) flag i st
              = runLoop rest flag (i + 1) { st with fetchedLinks := st.fetchedLinks + 1 } := by
            simp [runLoop, h0]
          rw [heq]
          refine ⟨by rw [hrec.1]; dsimp only; omega, hrec.2.1, hrec.2.2.1, ?_, ?_⟩
          · rw [hrec.2.2.2.1]
            simp [List.take_succ_cons, List.filterMap_cons, reportName]
          · rw [hrec.2.2.2.2]
            simp [List.take_succ_cons, List.filterMap_cons, reportName]
      | failed =>
        have hrec := ih j' (i + 1)
          { st with failed := st.failed + 1, fetchedLinks := st.fetchedLinks + 1 } hj' hset' hbefore'
        have heq : runLoop ((name, PageResult.failed) :: rest) flag i st
            = runLoop rest flag (i + 1)
              { st with failed := st.failed + 1, fetchedLinks := st.fetchedLinks + 1 } := by
          simp [runLoop, h0]
        rw [heq]
        refine ⟨by rw [hrec.1]; dsimp only; omega, hrec.2.1, hrec.2.2.1, ?_, ?_⟩
        · rw [hrec.2.2.2.1]
          simp [List.take_succ_cons, List.filterMap_cons, reportName]
        · rw [hrec.2.2.2.2]
          simp [List.take_succ_cons, List.filterMap_cons, reportName]

/-! ## Deep-merge helper lemmas -/

theorem deepMergeM_nil (base : List (String × Value)) : deepMergeM base [] = base := by
  rw [deepMergeM]

theorem deepMergeM_cons (base : List (String × Value)) (k : String) (v : Value)
    (rest : List (String × Value)) :
    deepMergeM base ((k, v) :: rest)
      = deepMergeM (aset base k (mergedValue (alookup base k) v)) rest := by
  rw [deepMergeM.eq_def]
  cases h : alookup base k with
  | none => cases v <;> simp [mergedValue, h]
  | some bv => cases bv <;> cases v <;> simp [mergedValue, h]

theorem deepMergeM_lookup_aux (b a : List (String × Value)) (k : String)
    (hb : (b.map Prod.fst).Nodup) :
    alookup (deepMergeM a b) k =
      match alookup b k with
      | some vb => some (mergedValue (alookup a k) vb)
      | none => alookup a k := by
  induction b generalizing a with
  | nil => rw [deepMergeM_nil]; rfl
  | cons p rest ih =>
    obtain ⟨k0, v0⟩ := p
    rw [deepMergeM_cons]
    have hk0 : k0 ∉ rest.map Prod.fst := (List.nodup_cons.mp (by simpa using hb)).1
    have htail : (rest.map Prod.fst).Nodup := (List.nodup_cons.mp (by simpa using hb)).2
    rw [ih _ htail]
    by_cases hk : k = k0
    · subst hk
      have hrest : alookup rest k = none := (alookup_eq_none_iff rest k).mpr hk0
      rw [hrest]
      simp only [alookup, if_pos rfl]
      exact alookup_aset_self a k (mergedValue (alookup a k) v0)
    · rw [alookup_aset_other a k0 k _ hk]
      simp only [alookup, if_neg (Ne.symm hk)]

/-! ## Pin-validation helper lemmas -/

theorem mem_validPins_esp32 (n : Int) :
    n ∈ validPins "ESP32" ↔ (0 ≤ n ∧ n ≤ 39 ∧ ¬(6 ≤ n ∧ n ≤ 11)) := by
  rw [show validPins "ESP32" =
    [0, 1, 2, 3, 4, 5, 12, 13, 14, 15, 16, 17, 18, 19, 20, 21, 22, 23, 24, 25, 26,
     27, 28, 29, 30, 31, 32, 33, 34, 35, 36, 37, 38, 39] from by decide]
  simp only [List.mem_cons, List.not_mem_nil, or_false]
  omega

theorem mem_validPins_esp8266 (n : Int) :
    n ∈ validPins "ESP8266" ↔
      (n = 0 ∨ n = 1 ∨ n = 2 ∨ n = 3 ∨ n = 4 ∨ n = 5 ∨ n = 12 ∨ n = 13 ∨ n = 14
        ∨ n = 15 ∨ n = 16) := by
  rw [show validPins "ESP8266" = [0, 1, 2, 3, 4, 5, 12, 13, 14, 15, 16] from by decide]
  simp only [List.mem_cons, List.not_mem_nil, or_false]

theorem mem_validPins_other (p : String) (n : Int) (h1 : pyUpper p ≠ "ESP32")
    (h2 : pyUpper p ≠ "ESP8266") : n ∈ validPins p ↔ (0 ≤ n ∧ n ≤ 49) := by
  unfold validPins
  rw [if_neg h1, if_neg h2]
  constructor
  · intro hm
    simp only [List.mem_map, List.mem_range] at hm
    obtain ⟨a, ha, heq⟩ := hm
    subst heq
    refine ⟨Int.ofNat_nonneg a, ?_⟩
    rw [Int.ofNat_eq_coe]
    exact_mod_cast Nat.lt_succ_iff.mp ha
  · intro hn
    simp only [List.mem_map, List.mem_range]
    refine ⟨n.toNat, by omega, ?_⟩
    rw [Int.ofNat_eq_coe]
    exact Int.toNat_of_nonneg hn.1

theorem checkPin_fst (n : Int) (p : String) :
    (checkPin n p).1 = true ↔ n ∈ validPins p := by
  unfold checkPin
  split
  · next hmem => simp [hmem]
  · next hmem => simp [hmem]

/-! ## Claim theorems -/

/-- C7: for every data_type tag (supported or unrecognized) and every
context, `validate_by_type` on a `None` value returns `(True, None)`:
absence is never rejected by the Validator. -/
theorem c7_validate_none_always_valid (data_type : String)
    (context : List (String × String)) :
    validate_by_type none data_type context = (true, none) := rfl

/-- C6: `set_value` is atomic with respect to failure — whenever it
returns `False`, the variable (in particular its `current_value`) is
exactly what it was before the call. -/
theorem c6_set_value_failure_atomic (cv : ConfigVariable) (v : Option Value)
    (h : (set_value cv v).1 = false) : (set_value cv v).2 = cv := by
  cases v with
  | none =>
    by_cases hr : cv.is_required
    · simp [set_value, hr]
    · simp [set_value, hr] at h
  | some w =>
    by_cases h1 : cv.data_type = "int"
    · cases w with
      | vInt n => simp [set_value, h1] at h
      | vBool b => simp [set_value, h1] at h
      | vStr s =>
        cases hp : pyParseInt s with
        | some n => simp [set_value, h1, pyInt, hp] at h
        | none => simp [set_value, h1, pyInt, hp]
      | vRat q => simp [set_value, h1, pyInt] at h
      | vList l => simp [set_value, h1, pyInt]
      | vMap m => simp [set_value, h1, pyInt]
    · by_cases h2 : cv.data_type = "float"
      · cases w with
        | vInt n => simp [set_value, h1, h2] at h
        | vBool b => simp [set_value, h1, h2] at h
        | vRat q => simp [set_value, h1, h2] at h
        | vStr s =>
          cases hp : pyParseFloat s with
          | some q => simp [set_value, h1, h2, pyFloat, hp] at h
          | none => simp [set_value, h1, h2, pyFloat, hp]
        | vList l => simp [set_value, h1, h2, pyFloat]
        | vMap m => simp [set_value, h1, h2, pyFloat]
      · by_cases h3 : cv.data_type = "bool"
        · cases w <;> simp [set_value, h1, h2, h3] at h
        · simp [set_value, h1, h2, h3] at h

/-- Witness for C6: setting the digit-free string `"abc"` on an
`int`-typed variable fails and leaves the variable untouched. -/
theorem c6_set_value_failure_atomic_witness :
    (set_value c6var (some (Value.vStr "abc"))).1 = false
    ∧ (set_value c6var (some (Value.vStr "abc"))).2 = c6var := by
  have h : (set_value c6var (some (Value.vStr "abc"))).1 = false := by rfl
  exact ⟨h, c6_set_value_failure_atomic c6var (some (Value.vStr "abc")) h⟩

/-- C5: pin validation accepts `GPIO<n>` strings and bare integers, and
accepts exactly the platform allow-list: ESP32 (the `validate_by_type`
default) is 0-39 without 6-11, ESP8266 is the explicit
`{0,1,2,3,4,5,12,13,14,15,16}`, any other platform is 0-49; in particular
`GPIO6` is invalid on ESP32, 2 is valid on ESP32, 5 is valid on ESP8266
and 6 is invalid on ESP8266. -/
theorem c5_pin_validation (n : Int) (m : Nat) (s : String) (p : String)
    (hs : parsePinStr s = some m) :
    validate_pin_number (Value.vStr s) p = validate_pin_number (Value.vInt (Int.ofNat m)) p
    ∧ ((validate_pin_number (Value.vInt n) "ESP32").1 = true
        ↔ (0 ≤ n ∧ n ≤ 39 ∧ ¬(6 ≤ n ∧ n ≤ 11)))
    ∧ ((validate_pin_number (Value.vInt n) "ESP8266").1 = true
        ↔ (n = 0 ∨ n = 1 ∨ n = 2 ∨ n = 3 ∨ n = 4 ∨ n = 5 ∨ n = 12 ∨ n = 13 ∨ n = 14
            ∨ n = 15 ∨ n = 16))
    ∧ (pyUpper p ≠ "ESP32" → pyUpper p ≠ "ESP8266" →
        ((validate_pin_number (Value.vInt n) p).1 = true ↔ (0 ≤ n ∧ n ≤ 49)))
    ∧ (∀ v : Value, validate_by_type (some v) "pin" [] = validate_pin_number v "ESP32")
    ∧ (validate_pin_number (Value.vStr "GPIO6") "ESP32").1 = false
    ∧ validate_pin_number (Value.vInt 2) "ESP32" = (true, none)
    ∧ validate_pin_number (Value.vInt 5) "ESP8266" = (true, none)
    ∧ (validate_pin_number (Value.vInt 6) "ESP8266").1 = false := by
  refine ⟨?_, ?_, ?_, ?_, ?_, by decide, by decide, by decide, by decide⟩
  · dsimp only [validate_pin_number]
    rw [hs]
    rfl
  · rw [show validate_pin_number (Value.vInt n) "ESP32" = checkPin n "ESP32" from rfl]
    rw [checkPin_fst]
    exact mem_validPins_esp32 n
  · rw [show validate_pin_number (Value.vInt n) "ESP8266" = checkPin n "ESP8266" from rfl]
    rw [checkPin_fst]
    exact mem_validPins_esp8266 n
  · intro h1 h2
    rw [show validate_pin_number (Value.vInt n) p = checkPin n p from rfl]
    rw [checkPin_fst]
    exact mem_validPins_other p n h1 h2
  · intro v
    simp [validate_by_type, getContextPlatform, alookup]

/-- Witness for C5 at pin 4, string `GPIO4` and the unknown platform
`M5STACK`. -/
theorem c5_pin_validation_witness :
    validate_pin_number (Value.vStr "GPIO4") "M5STACK"
      = validate_pin_number (Value.vInt (Int.ofNat 4)) "M5STACK"
    ∧ ((validate_pin_number (Value.vInt 4) "M5STACK").1 = true ↔ (0 ≤ (4 : Int) ∧ (4 : Int) ≤ 49))
    ∧ (validate_pin_number (Value.vStr "GPIO6") "ESP32").1 = false
    ∧ validate_pin_number (Value.vInt 2) "ESP32" = (true, none)
    ∧ validate_pin_number (Value.vInt 5) "ESP8266" = (true, none)
    ∧ (validate_pin_number (Value.vInt 6) "ESP8266").1 = false := by
  have h := c5_pin_validation 4 4 "GPIO4" "M5STACK" (by decide)
  exact ⟨h.1, h.2.2.2.1 (by decide) (by decide), h.2.2.2.2.2.1, h.2.2.2.2.2.2.1,
    h.2.2.2.2.2.2.2.1, h.2.2.2.2.2.2.2.2⟩

/-- C10: on a `bool`-typed variable `set_value` accepts every non-None
value — non-bool non-string values are coerced through truthiness (a
non-zero float is stored as `True`), a string is stored as `True` exactly
when its lowercase form is `true`/`1`/`yes`/`on` and as `False` otherwise
— and the only failing call is `set_value(None)` when the variable is
required. -/
theorem c10_bool_set_value (cv : ConfigVariable) (h : cv.data_type = "bool") :
    (∀ v : Value, (set_value cv (some v)).1 = true)
    ∧ (∀ ov : Option Value, (set_value cv ov).1 = false ↔ (ov = none ∧ cv.is_required = true))
    ∧ (∀ q : ℚ, q ≠ 0 →
        (set_value cv (some (Value.vRat q))).2.current_value = some (Value.vBool true))
    ∧ (∀ s : String,
        ((set_value cv (some (Value.vStr s))).2.current_value = some (Value.vBool true)
          ↔ (pyLower s = "true" ∨ pyLower s = "1" ∨ pyLower s = "yes" ∨ pyLower s = "on")))
    ∧ (∀ s : String,
        ¬(pyLower s = "true" ∨ pyLower s = "1" ∨ pyLower s = "yes" ∨ pyLower s = "on") →
          (set_value cv (some (Value.vStr s))).2.current_value = some (Value.vBool false)) := by
  have hTrue : ∀ v : Value, (set_value cv (some v)).1 = true := by
    intro v
    cases v <;> simp [set_value, h]
  refine ⟨hTrue, ?_, ?_, ?_, ?_⟩
  · intro ov
    cases ov with
    | none => by_cases hr : cv.is_required <;> simp [set_value, hr]
    | some v => simp [hTrue v]
  · intro q hq
    simp [set_value, h, pyTruthy, hq]
  · intro s
    simp only [set_value, h]
    simp [bne_iff_ne]
    tauto
  · intro s hs
    simp only [not_or] at hs
    obtain ⟨h1, h2, h3, h4⟩ := hs
    simp only [set_value, h]
    simp [h1, h2, h3, h4]

/-- Witness for C10: on the required bool variable, 3.7 is stored as
`True`, `set_value(None)` fails, and the string `"maybe"` is stored as
`False`. -/
theorem c10_bool_set_value_witness :
    c10var.data_type = "bool"
    ∧ (set_value c10var (some (Value.vRat (37 / 10)))).2.current_value = some (Value.vBool true)
    ∧ (set_value c10var none).1 = false
    ∧ (set_value c10var (some (Value.vStr "maybe"))).2.current_value = some (Value.vBool false) := by
  have h := c10_bool_set_value c10var rfl
  refine ⟨rfl, h.2.2.1 (37 / 10) (by norm_num), ?_, h.2.2.2.2 "maybe" (by decide)⟩
  exact (h.2.1 none).mpr ⟨rfl, rfl⟩

/-- C1 counterexample: for a component named `a.b` with a string variable
whose value contains `: `, the entry keeps the dot in the synthesised id
(the code replaces spaces and hyphens, not dots) and stores the raw,
unquoted string value. -/
theorem c1_entry_dict_counterexample :
    buildEntry c1comp =
      [("platform", Value.vStr "a.b"), ("note", Value.vStr "p: q"),
       ("id", Value.vStr "a.b_01234567")]
    ∧ alookup (buildEntry c1comp) "id" ≠ some (Value.vStr "a_b_01234567")
    ∧ alookup (buildEntry c1comp) "note" ≠ some (Value.vStr "\"p: q\"") := by
  refine ⟨rfl, ?_, ?_⟩
  · intro hc
    have h1 : alookup (buildEntry c1comp) "id" = some (Value.vStr "a.b_01234567") := rfl
    rw [h1] at hc
    simp at hc
  · intro hc
    have h1 : alookup (buildEntry c1comp) "note" = some (Value.vStr "p: q") := rfl
    rw [h1] at hc
    simp at hc

/-- C1 (amended): the entry dict sets `platform` to the name exactly when
the name differs from the type (when no variable named `platform` carries
a value), sets `entry[var.name]` to the raw effective value for every
variable whose effective value is non-null, and, when no `id` key
resulted, synthesises `id` as the name lowercased with spaces and hyphens
(not dots) replaced by underscores, followed by `_` and the first 8
characters of `instance_id`. -/
theorem c1_entry_dict (c : ESPHomeComponent)
    (hnod : (c.config_vars.map ConfigVariable.name).Nodup) :
    generate_component_config c = some (buildEntry c)
    ∧ ((∀ v ∈ c.config_vars, v.name = "platform" → get_effective_value v = none) →
        alookup (buildEntry c) "platform" =
          if c.name ≠ c.component_type then some (Value.vStr c.name) else none)
    ∧ (∀ v ∈ c.config_vars, ∀ w : Value, get_effective_value v = some w →
        alookup (buildEntry c) v.name = some w)
    ∧ ((∀ v ∈ c.config_vars, v.name = "id" → get_effective_value v = none) →
        alookup (buildEntry c) "id" =
          some (Value.vStr (safeName c.name ++ "_" ++ pyTake c.instance_id 8))) := by
  refine ⟨generate_component_config_eq c, buildEntry_lookup_platform c, ?_,
    buildEntry_lookup_id_synth c⟩
  intro v hv w hw
  exact buildEntry_lookup_var c hv hw hnod

/-- Witness for C1 (amended) on the `dht` sensor component. -/
theorem c1_entry_dict_witness :
    alookup (buildEntry dhtComp) "platform" = some (Value.vStr "dht")
    ∧ alookup (buildEntry dhtComp) "pin" = some (Value.vStr "GPIO2")
    ∧ alookup (buildEntry dhtComp) "id" = some (Value.vStr "dht_aabbccdd") := by
  have h := c1_entry_dict dhtComp (by decide)
  refine ⟨?_, ?_, ?_⟩
  · have hp := h.2.1 (by
      intro v hv hn
      simp [dhtComp] at hv
      subst hv
      simp [dhtPinVar] at hn)
    rw [hp]
    rfl
  · have := h.2.2.1 dhtPinVar (by simp [dhtComp]) (Value.vStr "GPIO2") rfl
    exact this
  · have hid := h.2.2.2 (by
      intro v hv hn
      simp [dhtComp] at hv
      subst hv
      simp [dhtPinVar] at hn)
    rw [hid]
    rfl

/-- C9: the per-component entry builder never returns an empty result —
the entry always contains an `id` key, the `None` branch is unreachable,
and every non-pre-seeded section of the generated document holds exactly
one list entry per input component of that type. -/
theorem c9_entry_never_empty (c : ESPHomeComponent) (comps : List ESPHomeComponent)
    (d p b t : String) :
    generate_component_config c = some (buildEntry c)
    ∧ buildEntry c ≠ []
    ∧ (alookup (buildEntry c) "id").isSome = true
    ∧ (t ∉ (["esphome", "wifi", "logger", "api", "ota"] : List String) →
        ∀ l : List Value, alookup (generate_esphome_config comps d p b) t = some (Value.vList l) →
          l.length = (comps.filter (fun c2 => c2.component_type == t)).length) := by
  refine ⟨generate_component_config_eq c, buildEntry_ne_nil c, buildEntry_id_isSome c, ?_⟩
  intro ht l hl
  have hpre := preseed_lookup_absent d p b t ht
  have hng := groupByType_keys_nodup comps
  have hgl := groupByType_lookup comps t
  unfold generate_esphome_config at hl
  by_cases he : (comps.filter (fun c2 => c2.component_type == t)).isEmpty
  · rw [if_pos he] at hgl
    rw [fold_addGroup_absent_none _ _ _ hpre hgl] at hl
    cases hl
  · rw [if_neg he] at hgl
    rw [fold_addGroup_absent_some _ _ _ hng hpre hgl] at hl
    have := Option.some.inj hl
    have hli : l = (comps.filter (fun c2 => c2.component_type == t)).map
        (fun c => Value.vMap (buildEntry c)) := by
      cases this
      rfl
    rw [hli, List.length_map]

/-- Witness for C9 on the variable-less `gpio` switch component. -/
theorem c9_entry_never_empty_witness :
    generate_component_config c9comp = some (buildEntry c9comp)
    ∧ buildEntry c9comp = [("platform", Value.vStr "gpio"), ("id", Value.vStr "gpio_12345678")]
    ∧ (alookup (buildEntry c9comp) "id").isSome = true
    ∧ ([Value.vMap (buildEntry c9comp)] : List Value).length
        = ([c9comp].filter (fun c2 => c2.component_type == "switch")).length := by
  have h := c9_entry_never_empty c9comp [c9comp] "dev" "ESP32" "board" "switch"
  exact ⟨h.1, by rfl, h.2.2.1,
    h.2.2.2 (by decide) [Value.vMap (buildEntry c9comp)] (by rfl)⟩

/-- C4: non-pre-seeded sections of the generated document are lists
holding one entry per component of that type in input order; a component
whose type equals a pre-seeded section name converts that section into
the component's entry. -/
theorem c4_document_sections (comps : List ESPHomeComponent) (d p b t : String) :
    (t ∉ (["esphome", "wifi", "logger", "api", "ota"] : List String) →
      alookup (generate_esphome_config comps d p b) t =
        (if (comps.filter (fun c => c.component_type == t)).isEmpty then none
         else some (Value.vList ((comps.filter (fun c => c.component_type == t)).map
            (fun c => Value.vMap (buildEntry c))))))
    ∧ (∀ c : ESPHomeComponent, t ∈ (["esphome", "wifi", "logger", "api", "ota"] : List String) →
        comps.filter (fun c2 => c2.component_type == t) = [c] →
        alookup (generate_esphome_config comps d p b) t = some (Value.vMap (buildEntry c))) := by
  constructor
  · intro ht
    have hpre := preseed_lookup_absent d p b t ht
    have hng := groupByType_keys_nodup comps
    have hgl := groupByType_lookup comps t
    unfold generate_esphome_config
    by_cases he : (comps.filter (fun c => c.component_type == t)).isEmpty
    · rw [if_pos he] at hgl ⊢
      exact fold_addGroup_absent_none _ _ _ hpre hgl
    · rw [if_neg he] at hgl ⊢
      exact fold_addGroup_absent_some _ _ _ hng hpre hgl
  · intro c ht hfil
    have hng := groupByType_keys_nodup comps
    have hgl := groupByType_lookup comps t
    rw [hfil] at hgl
    simp only [List.isEmpty_cons, if_false, Bool.false_eq_true] at hgl
    unfold generate_esphome_config
    simp only [List.mem_cons, List.mem_singleton] at ht
    rcases ht with rfl | rfl | rfl | rfl | rfl | hE
    · obtain ⟨m, hm⟩ : ∃ m, alookup (preseedConfig d p b) "esphome" = some (Value.vMap m) :=
        ⟨_, rfl⟩
      exact fold_addGroup_scalar _ _ _ c m hng hm hgl
    · obtain ⟨m, hm⟩ : ∃ m, alookup (preseedConfig d p b) "wifi" = some (Value.vMap m) :=
        ⟨_, rfl⟩
      exact fold_addGroup_scalar _ _ _ c m hng hm hgl
    · obtain ⟨m, hm⟩ : ∃ m, alookup (preseedConfig d p b) "logger" = some (Value.vMap m) :=
        ⟨_, rfl⟩
      exact fold_addGroup_scalar _ _ _ c m hng hm hgl
    · obtain ⟨m, hm⟩ : ∃ m, alookup (preseedConfig d p b) "api" = some (Value.vMap m) :=
        ⟨_, rfl⟩
      exact fold_addGroup_scalar _ _ _ c m hng hm hgl
    · obtain ⟨m, hm⟩ : ∃ m, alookup (preseedConfig d p b) "ota" = some (Value.vMap m) :=
        ⟨_, rfl⟩
      exact fold_addGroup_scalar _ _ _ c m hng hm hgl
    · cases hE

/-- Witness for C4: a `sensor` list section and an `api` scalar-collision
section in one generated document. -/
theorem c4_document_sections_witness :
    alookup (generate_esphome_config [dhtComp, apiComp] "dev1" "ESP32" "nodemcu-32s") "sensor"
      = some (Value.vList [Value.vMap (buildEntry dhtComp)])
    ∧ alookup (generate_esphome_config [dhtComp, apiComp] "dev1" "ESP32" "nodemcu-32s") "api"
      = some (Value.vMap (buildEntry apiComp)) := by
  have h1 := (c4_document_sections [dhtComp, apiComp] "dev1" "ESP32" "nodemcu-32s" "sensor").1
    (by decide)
  have h2 := (c4_document_sections [dhtComp, apiComp] "dev1" "ESP32" "nodemcu-32s" "api").2
    apiComp (by decide) (by rfl)
  exact ⟨h1.trans (by rfl), h2⟩

/-- C3: deep-merging with the empty document is a right identity, and
`_deep_merge` follows the stated rules per key — both mappings recurse,
both sequences concatenate, otherwise the merge document's value wins,
and keys only in the merge document are added. -/
theorem c3_deep_merge (a b : List (String × Value)) (hb : (b.map Prod.fst).Nodup) :
    deepMergeM (deepMergeM a b) [] = deepMergeM a b
    ∧ ∀ k : String, alookup (deepMergeM a b) k =
        match alookup a k, alookup b k with
        | some (Value.vMap ma), some (Value.vMap mb) => some (Value.vMap (deepMergeM ma mb))
        | some (Value.vList la), some (Value.vList lb) => some (Value.vList (la ++ lb))
        | _, some vb => some vb
        | some va, none => some va
        | none, none => none := by
  refine ⟨deepMergeM_nil _, ?_⟩
  intro k
  rw [deepMergeM_lookup_aux b a k hb]
  cases hbk : alookup b k with
  | none =>
    cases hak : alookup a k with
    | none => rfl
    | some va => cases va <;> rfl
  | some vb =>
    cases hak : alookup a k with
    | none => cases vb <;> simp [mergedValue]
    | some va => cases va <;> cases vb <;> simp [mergedValue]

/-- Witness for C3 on two small documents: a shared `sensor` list key, a
key only in the base, and a key only in the merge document. -/
theorem c3_deep_merge_witness :
    (c3docB.map Prod.fst).Nodup
    ∧ deepMergeM (deepMergeM c3docA c3docB) [] = deepMergeM c3docA c3docB
    ∧ alookup (deepMergeM c3docA c3docB) "sensor" = some (Value.vList [Value.vInt 1, Value.vInt 2])
    ∧ alookup (deepMergeM c3docA c3docB) "api" = some (Value.vStr "x")
    ∧ alookup (deepMergeM c3docA c3docB) "logger"
        = some (Value.vMap [("level", Value.vStr "DEBUG")]) := by
  have h := c3_deep_merge c3docA c3docB (by decide)
  exact ⟨by decide, h.1, (h.2 "sensor").trans (by rfl), (h.2 "api").trans (by rfl),
    (h.2 "logger").trans (by rfl)⟩

/-- C2 counterexample: the table/definition-list pass appends
unconditionally, so two same-named variables extracted by that first pass
are both kept — the merged list violates "each pass appends only
variables whose name is not already present". -/
theorem c2_merge_counterexample :
    scrape_page_config_vars [tablePinVar, dlPinVar] [] [] = [tablePinVar, dlPinVar]
    ∧ ((scrape_page_config_vars [tablePinVar, dlPinVar] [] []).map ConfigVariable.name)
        = ["pin", "pin"]
    ∧ ¬ ((scrape_page_config_vars [tablePinVar, dlPinVar] [] []).map ConfigVariable.name).Nodup := by
  exact ⟨rfl, rfl, by decide⟩

/-- C2 (amended): the code-block pass and the clean-content passes append
only variables whose name is not already present (first occurrence wins),
while the table/definition-list pass is kept verbatim as the prefix; in
particular, for a name present in the table pass, lookup by name in the
merged result returns the table-derived variable. -/
theorem c2_merge_first_wins (tdl code content : List ConfigVariable) :
    (scrape_page_config_vars tdl code content).take tdl.length = tdl
    ∧ (∀ v ∈ (scrape_page_config_vars tdl code content).drop tdl.length,
        (v ∈ code ∨ v ∈ content) ∧ ∀ w ∈ tdl, w.name ≠ v.name)
    ∧ (((scrape_page_config_vars tdl code content).drop tdl.length).map
        ConfigVariable.name).Nodup
    ∧ (∀ nm : String, tdl.any (fun cv => cv.name == nm) = true →
        (scrape_page_config_vars tdl code content).find? (fun cv => cv.name == nm)
          = tdl.find? (fun cv => cv.name == nm)) := by
  obtain ⟨e1, he1, hp1, hn1⟩ := fold_appendIfAbsent_shape code tdl
  obtain ⟨e2, he2, hp2, hn2⟩ := fold_appendIfAbsent_shape content (tdl ++ e1)
  have hr : scrape_page_config_vars tdl code content = tdl ++ (e1 ++ e2) := by
    unfold scrape_page_config_vars parse_config_variables
    rw [he1, he2, List.append_assoc]
  refine ⟨?_, ?_, ?_, ?_⟩
  · rw [hr]
    exact List.take_left tdl (e1 ++ e2)
  · intro v hv
    rw [hr, List.drop_left] at hv
    rcases List.mem_append.mp hv with h1 | h2
    · obtain ⟨hin, hnames⟩ := hp1 v h1
      exact ⟨Or.inl hin, hnames⟩
    · obtain ⟨hin, hnames⟩ := hp2 v h2
      exact ⟨Or.inr hin, fun w hw => hnames w (List.mem_append_left _ hw)⟩
  · rw [hr, List.drop_left, List.map_append, List.nodup_append]
    refine ⟨hn1, hn2, ?_⟩
    intro x hx1 hx2
    obtain ⟨u1, hu1, hxeq1⟩ := List.mem_map.mp hx1
    obtain ⟨u2, hu2, hxeq2⟩ := List.mem_map.mp hx2
    exact (hp2 u2 hu2).2 u1 (List.mem_append_right _ hu1) (by rw [hxeq1, hxeq2])
  · intro nm hany
    rw [hr]
    apply find_append_of_some
    rw [List.find?_isSome]
    obtain ⟨cv, hcv, hbe⟩ := List.any_eq_true.mp hany
    exact ⟨cv, hcv, hbe⟩

/-- Witness for C2 (amended): a table `pin` variable survives a same-named
code-block variable; the fresh code-block `mode` variable is appended. -/
theorem c2_merge_first_wins_witness :
    (scrape_page_config_vars [tablePinVar] [codePinVar, codeModeVar] []).find?
        (fun cv => cv.name == "pin") = some tablePinVar
    ∧ scrape_page_config_vars [tablePinVar] [codePinVar, codeModeVar] []
        = [tablePinVar, codeModeVar] := by
  have h := c2_merge_first_wins [tablePinVar] [codePinVar, codeModeVar] []
  exact ⟨(h.2.2.2 "pin" (by decide)).trans (by rfl), by rfl⟩

/-- C8: crawl cancellation is cooperative and loss-free — once the flag is
first seen set at check `j`, exactly the first `j` links have been
fetched, the run breaks early and never emits `scraping_finished`, and
precisely the components scraped and saved before the cancellation remain
reported. -/
theorem c8_crawl_cancellation (links : List (String × PageResult)) (flag : Nat → Bool)
    (j : Nat) (hj : j < links.length) (hset : flag j = true)
    (hbefore : ∀ i, i < j → flag i = false) :
    (run_scraping links flag).fetchedLinks = j
    ∧ (run_scraping links flag).brokeEarly = true
    ∧ (run_scraping links flag).finishedEmitted = false
    ∧ (run_scraping links flag).reported = (links.take j).filterMap reportName
    ∧ (run_scraping links flag).scraped = ((links.take j).filterMap reportName).length := by
  have h := runLoop_cancel links flag j 0 ⟨0, 0, [], 0, false, false⟩ hj
    (by simpa using hset) (by intro k hk; simpa using hbefore k hk)
  unfold run_scraping
  exact ⟨by simp [h.1], h.2.1, by simp [h.2.2.1], by simp [h.2.2.2.1], by simp [h.2.2.2.2]⟩

/-- Witness for C8: the spec's five-link run with cancellation requested
after the 2nd successful extraction ends canceled with exactly 2
components reported and no third fetch. -/
theorem c8_crawl_cancellation_witness :
    (run_scraping c8links c8flag).fetchedLinks = 2
    ∧ (run_scraping c8links c8flag).brokeEarly = true
    ∧ (run_scraping c8links c8flag).finishedEmitted = false
    ∧ (run_scraping c8links c8flag).reported = ["dht", "gpio"]
    ∧ (run_scraping c8links c8flag).scraped = 2 := by
  have h := c8_crawl_cancellation c8links c8flag 2 (by decide) (by decide) (by decide)
  exact ⟨h.1, h.2.1, h.2.2.1, h.2.2.2.1.trans (by rfl), h.2.2.2.2.trans (by rfl)⟩
